import Mathlib

/-!
Shallow embedding of pg_split_dump's core (src/custom_dump_reader.rs):
the custom-dump entry classifier (`CustomDump::add_item` and its helpers),
the ACL sorter (`CustomDump::sort_acl`), the entry-stream iterator
(`CustomDumpContentsIterator::next`) and the byte-level header reader
(`CustomDumpReader::read_header`).  Rust `HashMap`s are modelled as
association lists (lookup/insert semantics only; iteration order is never
observed by the code under study), machine integers as `Nat`/`Int`, and
fallible code as `Except`.  A Rust `panic!`/`unwrap` failure is modelled as a
distinguished fault constructor, separate from the `DumpReadError` values the
code returns; panic message texts are abbreviated to constants.
-/

namespace PgSplitDump

/-- Rust `str::split_once(c)`: split at the first occurrence of the character
`c`, returning the parts before and after it, or `none` when `c` does not
occur.  Char-list level. -/
def splitOnceCh (c : Char) : List Char → Option (List Char × List Char)
  | [] => none
  | x :: rest =>
    if x = c then some ([], rest)
    else
      match splitOnceCh c rest with
      | none => none
      | some (a, b) => some (x :: a, b)

/-- Rust `str::split_once(c)` lifted to `String`. -/
def splitOnce (c : Char) (s : String) : Option (String × String) :=
  match splitOnceCh c s.toList with
  | none => none
  | some (a, b) => some (String.mk a, String.mk b)

/-- Rust `str::starts_with(pre)`. -/
def startsWithR (s pre : String) : Bool :=
  pre.toList.isPrefixOf s.toList

/-- Rust `acl.split(";\n")` from `CustomDump::sort_acl`: split a character
list on every (leftmost-first) occurrence of the two-character separator
`';'  '\n'`; adjacent/leading/trailing separators produce empty segments. -/
def splitAclSep : List Char → List (List Char)
  | [] => [[]]
  | [c] => [[c]]
  | c₁ :: c₂ :: rest =>
    if c₁ = ';' ∧ c₂ = '\n' then [] :: splitAclSep rest
    else (splitAclSep (c₂ :: rest)).modifyHead (c₁ :: ·)

/-- `true` iff the character list contains no occurrence of the ACL
statement separator `';' '\n'`. -/
def noSepB : List Char → Bool
  | [] => true
  | [_] => true
  | c₁ :: c₂ :: rest => if c₁ = ';' ∧ c₂ = '\n' then false else noSepB (c₂ :: rest)

/-- Join a list of strings with a separator (Rust `Vec::join` / the
re-serialization of a split file's segments). -/
def joinSegments (sep : String) : List String → String
  | [] => ""
  | [x] => x
  | x :: xs => x ++ sep ++ joinSegments sep xs

/-- Association-list analogue of updating the value stored under an existing
key of a Rust `HashMap` (`get_mut` followed by mutation). -/
def alistUpdate {β : Type} (k : String) (f : β → β) : List (String × β) → List (String × β)
  | [] => []
  | (k₀, v) :: rest => if k₀ = k then (k₀, f v) :: rest else (k₀, v) :: alistUpdate k f rest

/-- `DumpReadError` (src/custom_dump_reader.rs): the error values the reader
returns. `ioError` carries the message of a propagated `io::Error`. -/
inductive DumpReadError where
  | ioError (msg : String)
  | otherError (msg : String)
deriving DecidableEq

/-- A fault of the classification pass: either a returned `DumpReadError`
value or a Rust `panic!`/`unwrap` crash (message abbreviated). -/
inductive Fault where
  | error (e : DumpReadError)
  | panic (msg : String)
deriving DecidableEq

deriving instance DecidableEq for Except

/-- `CustomDumpItem`: one decoded archive entry.  The Rust field
`namespace` is spelled `nspace` (`namespace` is a Lean keyword). -/
structure CustomDumpItem where
  table_oid : Nat
  oid : Nat
  tag : String
  desc : String
  definition : String
  nspace : String
  owner : String
deriving DecidableEq

/-- `AuxiliaryData` (src/auxiliary_data.rs): three read-only lookup maps,
modelled as functions. `trigger_functions` is a `HashMap<u32, ()>` used as a
set, hence `Nat → Bool`. -/
structure AuxiliaryData where
  index_table : Nat → Option String
  pretty_printed_views : Nat → Option String
  trigger_functions : Nat → Bool

/-- `SplitDumpDirectory`: nested directories and files; each file is an
append-ordered sequence of text blocks.  The two `HashMap`s are modelled as
association lists. -/
inductive SplitDumpDirectory where
  | mk (dirs : List (String × SplitDumpDirectory)) (files : List (String × List String))

/-- The subdirectory map of a `SplitDumpDirectory`. -/
def SplitDumpDirectory.dirs : SplitDumpDirectory → List (String × SplitDumpDirectory)
  | .mk d _ => d

/-- The file map of a `SplitDumpDirectory`. -/
def SplitDumpDirectory.files : SplitDumpDirectory → List (String × List String)
  | .mk _ f => f

/-- `SplitDumpDirectory::new()`. -/
def SplitDumpDirectory.new : SplitDumpDirectory := .mk [] []

/-- `CustomDump`: the accumulated classification state.  `views` is the
view registry, a `HashMap<View, ()>` used as a set of (schema, name) pairs,
modelled as a duplicate-free association list of pairs. -/
structure CustomDump where
  set_client_encoding : Option String
  set_standard_conforming_strings : Option String
  set_search_path : Option String
  split_root : SplitDumpDirectory
  file_order : List String
  views : List (String × String)

/-- `CustomDump::new()`. -/
def CustomDump.new : CustomDump :=
  { set_client_encoding := none
    set_standard_conforming_strings := none
    set_search_path := none
    split_root := SplitDumpDirectory.new
    file_order := []
    views := [] }

/-- `HashMap::insert` on the view-registry set: inserting an already present
key leaves the set unchanged (the value type is `()`). -/
def viewsInsert (l : List (String × String)) (v : String × String) : List (String × String) :=
  if v ∈ l then l else l ++ [v]

/-- `CustomDump::is_view`. -/
def is_view (d : CustomDump) (schema pg_class_entry : String) : Bool :=
  d.views.contains (schema, pg_class_entry)

/-- Plain lexicographic order on character lists.  Rust's `str` ordering
compares UTF-8 bytes lexicographically, which coincides with codepoint-wise
lexicographic comparison. -/
def charListLe : List Char → List Char → Bool
  | [], _ => true
  | _ :: _, [] => false
  | a :: as, b :: bs => if a = b then charListLe as bs else decide (a < b)

/-- The comparator of `CustomDump::sort_acl` as a boolean `≤`:
statements beginning with `REVOKE` sort before all others; ties are broken
by plain lexical order of the full statement text. -/
def aclLe (a b : String) : Bool :=
  if startsWithR a "REVOKE" = startsWithR b "REVOKE" then charListLe a.toList b.toList
  else startsWithR a "REVOKE"

/-- Insert into a `le`-sorted list, keeping it sorted. -/
def insertSorted {α : Type} (le : α → α → Bool) (x : α) : List α → List α
  | [] => [x]
  | y :: ys => if le x y then x :: y :: ys else y :: insertSorted le x ys

/-- Insertion sort.  Models `Vec::sort_unstable_by` with the `sort_acl`
comparator: that comparator is a total order (antisymmetric on distinct
elements), so every correct sort produces this unique sorted rearrangement
and the choice of algorithm is not observable. -/
def sortBy {α : Type} (le : α → α → Bool) : List α → List α
  | [] => []
  | x :: xs => insertSorted le x (sortBy le xs)

/-- `CustomDump::sort_acl`: split the definition on `";\n"`, drop empty
segments, re-append `";"` to each remaining segment, sort with `aclLe`, and
keep one empty segment at the end. -/
def sort_acl (acl : String) : List String :=
  let parts := ((splitAclSep acl.toList).filter (· ≠ [])).map (fun e => String.mk (e ++ [';']))
  sortBy aclLe parts ++ [""]

/-- `CustomDump::get_filepath_from_combo_tag`: secondary dispatch on the
kind word of a combo tag (`"KIND REST"`).  `typ` is only interpolated into
panic messages in the source; panic messages are abbreviated here. -/
def get_filepath_from_combo_tag (d : CustomDump) (item : CustomDumpItem) (typ : String) :
    Except Fault (List String) :=
  match splitOnce ' ' item.tag with
  | none => .error (.panic "invalid tag")
  | some (desc, rest) =>
    match desc with
    | "SCHEMA" => .ok ["SCHEMAS", rest ++ ".sql"]
    | "EXTENSION" => .ok ["EXTENSIONS", rest ++ ".sql"]
    | "TYPE" => .ok [item.nspace, "TYPES", rest ++ ".sql"]
    | "FUNCTION" =>
      match splitOnce '(' rest with
      | none => .error (.panic "split_once unwrap")
      | some (function_name, _) => .ok [item.nspace, "FUNCTIONS", function_name ++ ".sql"]
    | "TABLE" =>
      -- ACLs do not know whether they are for a table or a view; consult
      -- the view registry.
      .ok [item.nspace, if is_view d item.nspace rest then "VIEWS" else "TABLES", rest ++ ".sql"]
    | "COLUMN" =>
      match splitOnce '.' rest with
      | none => .error (.panic "split_once unwrap")
      | some (table_name, _) => .ok [item.nspace, "TABLES", table_name ++ ".sql"]
    | "SEQUENCE" => .ok [item.nspace, "SEQUENCES", rest ++ ".sql"]
    | "VIEW" => .ok [item.nspace, "VIEWS", rest ++ ".sql"]
    | _ => .error (.panic ("unknown desc for " ++ typ ++ " item"))

/-- The big `match` of `CustomDump::add_item` (lines 97-347): computes the
updated session/registry state, the output filepath and the content blocks
for one entry.  The ordered literal-pattern match of the source is written
as the equivalent chain of equality tests.  The `(1262, "DATABASE")` early
return and the final tree merge live in `add_item` / `merge_item`. -/
def classify_item (d : CustomDump) (item : CustomDumpItem) (aux : AuxiliaryData) :
    Except Fault (CustomDump × List String × List String) :=
  if item.table_oid = 0 ∧ item.desc = "ENCODING" then
    if d.set_client_encoding.isSome then
      .error (.error (.otherError "more than one \"ENCODING\" item present"))
    else
      .ok ({ d with set_client_encoding := some item.definition }, ["index.sql"],
        [item.definition])
  else if item.table_oid = 0 ∧ item.desc = "STDSTRINGS" then
    if d.set_standard_conforming_strings.isSome then
      .error (.error (.otherError "more than one \"STDSTRINGS\" item present"))
    else
      .ok ({ d with set_standard_conforming_strings := some item.definition },
        ["index.sql"], [item.definition, "SET check_function_bodies = false;\n"])
  else if item.table_oid = 0 ∧ item.desc = "SEARCHPATH" then
    if d.set_search_path.isSome then
      .error (.error (.otherError "more than one \"SEARCHPATH\" item present"))
    else
      .ok ({ d with set_search_path := some item.definition }, ["index.sql"],
        [item.definition])
  else if item.table_oid = 0 ∧ item.desc = "ACL" then do
    let fp ← get_filepath_from_combo_tag d item "ACL"
    .ok (d, fp, sort_acl item.definition)
  else if item.table_oid = 0 ∧ item.desc = "COMMENT" then do
    let fp ← get_filepath_from_combo_tag d item "COMMENT"
    .ok (d, fp, [item.definition])
  else if item.table_oid = 2615 ∧ item.desc = "SCHEMA" then
    if item.tag = "public" then .ok (d, [], [item.definition])
    else .ok (d, ["SCHEMAS", item.tag ++ ".sql"], [item.definition])
  else if item.table_oid = 3079 ∧ item.desc = "EXTENSION" then
    .ok (d, ["EXTENSIONS", item.tag ++ ".sql"], [item.definition])
  else if item.table_oid = 0 ∧ item.desc = "SHELL TYPE" then
    .ok (d, [item.nspace, "SHELL_TYPES", item.tag ++ ".sql"], [item.definition])
  else if item.table_oid = 1247 ∧ item.desc = "TYPE" then
    .ok (d, [item.nspace, "TYPES", item.tag ++ ".sql"], [item.definition])
  else if item.table_oid = 1247 ∧ item.desc = "DOMAIN" then
    .ok (d, [item.nspace, "DOMAINS", item.tag ++ ".sql"], [item.definition])
  else if item.table_oid = 1255 ∧ item.desc = "FUNCTION" then
    match splitOnce '(' item.tag with
    | none => .error (.panic "split_once unwrap")
    | some (function_name, _) =>
      .ok (d, [item.nspace,
        if aux.trigger_functions item.oid then "TRIGGER_FUNCTIONS" else "FUNCTIONS",
        function_name ++ ".sql"],
        [item.definition,
         "ALTER FUNCTION " ++ item.nspace ++ "." ++ item.tag ++ " OWNER TO " ++
           item.owner ++ ";\n"])
  else if item.table_oid = 1255 ∧ item.desc = "AGGREGATE" then
    match splitOnce '(' item.tag with
    | none => .error (.panic "split_once unwrap")
    | some (function_name, _) =>
      .ok (d, [item.nspace, "FUNCTIONS", function_name ++ ".sql"], [item.definition])
  else if item.table_oid = 2617 ∧ item.desc = "OPERATOR" then
    .ok (d, [item.nspace, "operators.sql"], [item.definition])
  else if item.table_oid = 1259 ∧ item.desc = "TABLE" then
    .ok (d, [item.nspace, "TABLES", item.tag ++ ".sql"], [item.definition,
      "ALTER TABLE " ++ item.nspace ++ "." ++ item.tag ++ " OWNER TO " ++ item.owner ++ ";\n"])
  else if item.table_oid = 1259 ∧ item.desc = "INDEX" then
    match aux.index_table item.oid with
    | none => .error (.panic "index_table unwrap")
    | some table_name =>
      .ok (d, [item.nspace, "TABLES", table_name ++ ".sql"], [item.definition])
  else if item.table_oid = 2606 ∧ item.desc = "CONSTRAINT" then
    match splitOnce ' ' item.tag with
    | none => .error (.panic "split_once unwrap")
    | some (table_name, _) =>
      .ok (d, [item.nspace, "TABLES", table_name ++ ".sql"], [item.definition])
  else if item.table_oid = 2606 ∧ item.desc = "CHECK CONSTRAINT" then
    match splitOnce ' ' item.tag with
    | none => .error (.panic "split_once unwrap")
    | some (table_name, _) =>
      .ok (d, [item.nspace, "TABLES", table_name ++ ".sql"], [item.definition])
  else if item.table_oid = 2604 ∧ item.desc = "DEFAULT" then
    match splitOnce ' ' item.tag with
    | none => .error (.panic "split_once unwrap")
    | some (table_name, _) =>
      .ok (d, [item.nspace, "TABLES", table_name ++ ".sql"], [item.definition])
  else if item.table_oid = 2620 ∧ item.desc = "TRIGGER" then
    match splitOnce ' ' item.tag with
    | none => .error (.panic "split_once unwrap")
    | some (table_name, _) =>
      .ok (d, [item.nspace, "TABLES", table_name ++ ".sql"], [item.definition])
  else if item.table_oid = 2606 ∧ item.desc = "FK CONSTRAINT" then
    match splitOnce ' ' item.tag with
    | none => .error (.panic "split_once unwrap")
    | some (table_name, _) =>
      .ok (d, [item.nspace, "FK_CONSTRAINTS", table_name ++ ".sql"], [item.definition])
  else if item.table_oid = 1259 ∧ item.desc = "SEQUENCE" then
    .ok (d, [item.nspace, "SEQUENCES", item.tag ++ ".sql"], [item.definition,
      "ALTER SEQUENCE " ++ item.nspace ++ "." ++ item.tag ++ " OWNER TO " ++
        item.owner ++ ";\n"])
  else if item.table_oid = 0 ∧ item.desc = "SEQUENCE OWNED BY" then
    .ok (d, [item.nspace, "SEQUENCES", item.tag ++ ".sql"], [item.definition])
  else if item.table_oid = 1259 ∧ item.desc = "VIEW" then
    -- The registry insert happens before the pretty-printed body lookup,
    -- mirroring the source order; on panic the updated state is discarded.
    match aux.pretty_printed_views item.oid with
    | none => .error (.panic "pretty_printed_views unwrap")
    | some body =>
      .ok ({ d with views := viewsInsert d.views (item.nspace, item.tag) },
        [item.nspace, "VIEWS", item.tag ++ ".sql"],
        ["CREATE OR REPLACE VIEW " ++ item.tag ++ " AS", body,
         "ALTER VIEW " ++ item.nspace ++ "." ++ item.tag ++ " OWNER TO " ++
           item.owner ++ ";\n"])
  else if item.table_oid = 2618 ∧ item.desc = "RULE" then
    .ok (d, [item.nspace, "RULES", item.tag ++ ".sql"], [item.definition])
  else if item.table_oid = 6104 ∧ item.desc = "PUBLICATION" then
    .ok (d, ["PUBLICATIONS", item.tag, item.tag ++ ".sql"], [item.definition])
  else if item.table_oid = 6106 ∧ item.desc = "PUBLICATION TABLE" then
    match splitOnce ' ' item.tag with
    | none => .error (.panic "split_once unwrap")
    | some (publication_name, table_name) =>
      .ok (d, ["PUBLICATIONS", publication_name, table_name ++ ".sql"], [item.definition])
  else
    .error (.panic "unknown table_oid / desc for item")

/-- The directory walk of `add_item` (lines 352-358) together with the
file insert/append (lines 359-370): returns the updated directory and
whether the file was newly created. -/
def insertPath (cwd : SplitDumpDirectory) (dirs : List String) (filename : String)
    (contents : List String) : SplitDumpDirectory × Bool :=
  match dirs with
  | [] =>
    match cwd.files.lookup filename with
    | none => (.mk cwd.dirs (cwd.files ++ [(filename, contents)]), true)
    | some _ => (.mk cwd.dirs (alistUpdate filename (· ++ contents) cwd.files), false)
  | dname :: rest =>
    let child := ((cwd.dirs.lookup dname).getD SplitDumpDirectory.new)
    let done := insertPath child rest filename contents
    let dirs₁ :=
      if (cwd.dirs.lookup dname).isSome then alistUpdate dname (fun _ => done.1) cwd.dirs
      else cwd.dirs ++ [(dname, done.1)]
    (.mk dirs₁ cwd.files, done.2)

/-- Panic message of the `self.split_root.files.get_mut("index.sql").unwrap()`
in `add_item` (line 364). -/
def indexUnwrapMsg : String := "index.sql unwrap"

/-- Lines 349-371 of `add_item`: merge the computed contents into the split
tree at the computed filepath, appending an inclusion directive to the root
index file when a new non-index file is created. -/
def merge_item (d : CustomDump) (filepath : List String) (contents : List String) :
    Except Fault CustomDump :=
  match filepath.getLast? with
  | none => .ok d
  | some filename =>
    if (insertPath d.split_root filepath.dropLast filename contents).2 = true
        ∧ filename ≠ "index.sql" then
      match (insertPath d.split_root filepath.dropLast filename contents).1.files.lookup
          "index.sql" with
      | none => .error (.panic indexUnwrapMsg)
      | some _ =>
        .ok { d with split_root := (SplitDumpDirectory.mk
          ((insertPath d.split_root filepath.dropLast filename contents).1.dirs)
          (alistUpdate "index.sql"
            (· ++ ["\\ir " ++ String.intercalate "/" filepath])
            ((insertPath d.split_root filepath.dropLast filename contents).1.files))) }
    else
      .ok { d with split_root := (insertPath d.split_root filepath.dropLast filename contents).1 }

/-- `CustomDump::add_item`. -/
def add_item (d : CustomDump) (item : CustomDumpItem) (aux : AuxiliaryData) :
    Except Fault CustomDump :=
  if item.table_oid = 1262 ∧ item.desc = "DATABASE" then .ok d
  else
    match classify_item d item aux with
    | .error f => .error f
    | .ok (d₁, filepath, contents) => merge_item d₁ filepath contents

/-- The classification loop of `read_dump` over the already-decoded entry
stream: each element is either a decoded item or the message of a propagated
`io::Error`; the loop stops at the first fault. -/
def readItems (aux : AuxiliaryData) : List (Except String CustomDumpItem) → CustomDump →
    Except Fault CustomDump
  | [], d => .ok d
  | .error e :: _, _ => .error (.error (.ioError e))
  | .ok item :: rest, d =>
    match add_item d item aux with
    | .error f => .error f
    | .ok d₁ => readItems aux rest d₁

/-- `read_dump`, at entry-stream level: classify every streamed entry into a
fresh `CustomDump` (byte-level header decoding is modelled separately by
`readHeader`). -/
def read_dump (items : List (Except String CustomDumpItem)) (aux : AuxiliaryData) :
    Except Fault CustomDump :=
  readItems aux items CustomDump.new

/-- State of `CustomDumpContentsIterator`: the countdown `items_left`
(an `i64` in the source) and the number of `read_item` calls made so far
(standing for the reader's stream position). -/
structure ContentsIterator where
  items_left : Int
  pos : Nat
deriving DecidableEq

/-- `CustomDumpContentsIterator::next`: termination is decided solely by
`items_left == 0`; otherwise one decode attempt is made.  The byte source is
abstracted as `src`, giving the result of the k-th `read_item` call. -/
def iter_next (src : Nat → Except String CustomDumpItem) (st : ContentsIterator) :
    Option (Except String CustomDumpItem × ContentsIterator) :=
  if st.items_left = 0 then none
  else some (src st.pos, ⟨st.items_left - 1, st.pos + 1⟩)

/-- Drive `iter_next` up to `fuel` times, collecting the yielded elements. -/
def iter_run (src : Nat → Except String CustomDumpItem) (st : ContentsIterator) :
    Nat → List (Except String CustomDumpItem)
  | 0 => []
  | fuel + 1 =>
    match iter_next src st with
    | none => []
    | some (r, st₁) => r :: iter_run src st₁ fuel

/-- `CustomDumpReader::read_u8` over an in-memory byte stream (bytes as
`Nat`, little-endian wire order).  End of input is an `io::Error`. -/
def readU8 : List Nat → Except Fault (Nat × List Nat)
  | [] => .error (.error (.ioError "unexpected end of file"))
  | b :: rest => .ok (b, rest)

/-- The raw little-endian accumulation of the given number of bytes.
`byteorder::read_int`'s sign extension of this value is applied separately
by `signExtend`. -/
def readLE : Nat → List Nat → Except Fault (Nat × List Nat)
  | 0, bs => .ok (0, bs)
  | _ + 1, [] => .error (.error (.ioError "unexpected end of file"))
  | n + 1, b :: rest => do
    let vr ← readLE n rest
    .ok (b + 256 * vr.1, vr.2)

/-- Two's-complement reinterpretation of an n-byte little-endian value:
`byteorder::read_int` reads the n bytes as a signed integer, sign-extending
to the machine width, so a value with the top bit of its highest byte set
decodes as negative. -/
def signExtend (size : Nat) (v : Nat) : Int :=
  if 2 ^ (8 * size - 1) ≤ v then (v : Int) - 2 ^ (8 * size) else (v : Int)

/-- `CustomDumpReader::read_int`: one sign byte (0 positive, 1 negative,
anything else panics with "oops") followed by a signed (sign-extended)
little-endian integer of the configured width, negated when the sign byte
is 1. -/
def readInt (intSize : Nat) (bs : List Nat) : Except Fault (Int × List Nat) := do
  let sr ← readU8 bs
  let mr ← readLE intSize sr.2
  if sr.1 = 1 then .ok (-(signExtend intSize mr.1), mr.2)
  else if sr.1 = 0 then .ok (signExtend intSize mr.1, mr.2)
  else .error (.panic "oops")

/-- Read exactly `n` raw bytes. -/
def takeBytes : Nat → List Nat → Except Fault (List Nat × List Nat)
  | 0, bs => .ok ([], bs)
  | _ + 1, [] => .error (.error (.ioError "unexpected end of file"))
  | n + 1, b :: rest => do
    let vr ← takeBytes n rest
    .ok (b :: vr.1, vr.2)

/-- `CustomDumpReader::read_str`: a signed length (length ≤ 0 yields the
empty payload without reading) followed by that many payload bytes.  The
source additionally decodes the payload as UTF-8 (panicking when invalid);
the payload is kept as raw bytes here — `read_header` discards all string
payloads it reads, so their decoding is never observed by the claims. -/
def readStrBytes (intSize : Nat) (bs : List Nat) : Except Fault (List Nat × List Nat) := do
  let lr ← readInt intSize bs
  if lr.1 ≤ 0 then .ok ([], lr.2)
  else takeBytes lr.1.toNat lr.2

/-- `CustomDumpHeader`: the mutable header-continuation state; only the
declared entry count is retained. -/
structure CustomDumpHeader where
  num_items : Int
deriving DecidableEq

/-- Rust tuple comparison `(u8, u8) >= (u8, u8)` (lexicographic), used for
`dump_version() >= (1, 15)`. -/
def versionGE (v w : Nat × Nat) : Bool :=
  w.1 < v.1 || (v.1 = w.1 && w.2 ≤ v.2)

/-- `CustomDumpReader::read_header`: the version-dependent compression
field, six timestamp integers, the DST flag, three length-prefixed strings
(database name, remote version, producing-tool version; values discarded),
then the declared total entry count.  No validation is applied to the
decoded count. -/
def readHeader (ver : Nat × Nat) (intSize : Nat) (bs : List Nat) :
    Except Fault (CustomDumpHeader × List Nat) := do
  let r0 ←
    if versionGE ver (1, 15) then do
      let cr ← readU8 bs
      pure cr.2
    else do
      let cr ← readInt intSize bs
      pure cr.2
  let sec ← readInt intSize r0
  let min ← readInt intSize sec.2
  let hour ← readInt intSize min.2
  let mday ← readInt intSize hour.2
  let mon ← readInt intSize mday.2
  let year ← readInt intSize mon.2
  let isdst ← readInt intSize year.2
  let dbname ← readStrBytes intSize isdst.2
  let remoteVersion ← readStrBytes intSize dbname.2
  let toolVersion ← readStrBytes intSize remoteVersion.2
  let ni ← readInt intSize toolVersion.2
  .ok (⟨ni.1⟩, ni.2)

/-- Character-level form of a `";\n"`-separated ACL definition built from
bare statements: each statement followed by `';' '\n'`. -/
def joinStmts : List (List Char) → List Char
  | [] => []
  | y :: ys => y ++ ';' :: '\n' :: joinStmts ys

/-- Character-level form of newline-joining a list of segments with one
trailing empty segment: each segment followed by `'\n'`. -/
def charJoinNl : List (List Char) → List Char
  | [] => []
  | x :: xs => x ++ '\n' :: charJoinNl xs

/-! Concrete fixtures used by witnesses and counterexamples. -/

/-- Auxiliary catalog data with all three lookup maps empty. -/
def auxEmpty : AuxiliaryData := ⟨fun _ => none, fun _ => none, fun _ => false⟩

/-- Auxiliary catalog data whose trigger-function set contains oid 42. -/
def auxTrig42 : AuxiliaryData := ⟨fun _ => none, fun _ => none, fun o => o == 42⟩

/-- A plain TABLE entry. -/
def itemTableUsers : CustomDumpItem :=
  ⟨1259, 1, "users", "TABLE", "CREATE TABLE users ();", "public", "alice"⟩

/-- A session-setup ENCODING entry. -/
def itemEncoding : CustomDumpItem :=
  ⟨0, 0, "ENCODING", "ENCODING", "SET client_encoding = 'UTF8';", "", ""⟩

/-- An ACL entry whose combo tag names relation v1 in schema public. -/
def itemAclV1 : CustomDumpItem :=
  ⟨0, 0, "TABLE v1", "ACL", "GRANT SELECT ON TABLE v1 TO bob;\n", "public", ""⟩

/-- A FUNCTION entry with a parenthesised argument list in its tag. -/
def itemFunc : CustomDumpItem :=
  ⟨1255, 42, "compute_total(integer, integer)", "FUNCTION",
    "CREATE FUNCTION compute_total;", "public", "alice"⟩

/-- A dump state whose view registry records view v1 of schema public. -/
def dumpWithViewV1 : CustomDump := { CustomDump.new with views := [("public", "v1")] }

/-- A VIEW entry for v1 in schema public, object id 7. -/
def itemViewV1 : CustomDumpItem := ⟨1259, 7, "v1", "VIEW", "", "public", "alice"⟩

/-- Auxiliary catalog data with a pretty-printed body recorded for oid 7. -/
def auxView7 : AuxiliaryData :=
  ⟨fun _ => none, fun o => if o = 7 then some " SELECT 1;" else none, fun _ => false⟩

/-- A dump state whose root already holds an (empty) index file, as after a
session-setup entry. -/
def dumpWithIndex : CustomDump :=
  { CustomDump.new with split_root := SplitDumpDirectory.mk [] [("index.sql", [])] }

/-- The dump state produced by classifying exactly one ENCODING entry
(`itemEncoding`) into a fresh dump. -/
def dumpEncoded : CustomDump :=
  { CustomDump.new with
    set_client_encoding := some "SET client_encoding = 'UTF8';"
    split_root := SplitDumpDirectory.mk []
      [("index.sql", ["SET client_encoding = 'UTF8';"])] }

/-- Header-continuation bytes for dump version (1,12) with integer width 1:
compression, six timestamp fields, the DST flag (all zero), three empty
strings, then entry count with sign byte 1 (negative) and magnitude `b`. -/
def hdrNegBytes (b : Nat) : List Nat :=
  [0, 0] ++ [0, 0] ++ [0, 0] ++ [0, 0] ++ [0, 0] ++ [0, 0] ++ [0, 0] ++ [0, 0] ++
    [0, 0] ++ [0, 0] ++ [0, 0] ++ [1, b]

/-! Sorting lemmas for `insertSorted`/`sortBy`. -/

theorem insertSorted_perm {α : Type} (le : α → α → Bool) (x : α) :
    ∀ l : List α, (insertSorted le x l).Perm (x :: l)
  | [] => by simp [insertSorted]
  | y :: ys => by
    simp only [insertSorted]
    split
    · exact List.Perm.refl _
    · exact ((insertSorted_perm le x ys).cons y).trans (List.Perm.swap x y ys)

theorem sortBy_perm {α : Type} (le : α → α → Bool) :
    ∀ l : List α, (sortBy le l).Perm l
  | [] => List.Perm.refl _
  | x :: xs => by
    simpa [sortBy] using (insertSorted_perm le x (sortBy le xs)).trans
      ((sortBy_perm le xs).cons x)

theorem pairwise_insertSorted {α : Type} {le : α → α → Bool}
    (htrans : ∀ a b c, le a b = true → le b c = true → le a c = true)
    (htot : ∀ a b, le a b = true ∨ le b a = true) (x : α) :
    ∀ {l : List α}, l.Pairwise (le · · = true) →
      (insertSorted le x l).Pairwise (le · · = true)
  | [], _ => by simp [insertSorted]
  | y :: ys, h => by
    rw [List.pairwise_cons] at h
    obtain ⟨hy, hys⟩ := h
    simp only [insertSorted]
    split
    case isTrue hxy =>
      refine List.pairwise_cons.mpr ⟨?_, List.pairwise_cons.mpr ⟨hy, hys⟩⟩
      intro z hz
      rcases List.mem_cons.mp hz with hz | hz
      · exact hz ▸ hxy
      · exact htrans x y z hxy (hy z hz)
    case isFalse hxy =>
      have hyx : le y x = true := (htot x y).resolve_left hxy
      refine List.pairwise_cons.mpr ⟨?_, pairwise_insertSorted htrans htot x hys⟩
      intro z hz
      rcases List.mem_cons.mp ((insertSorted_perm le x ys).mem_iff.mp hz) with hz | hz
      · exact hz ▸ hyx
      · exact hy z hz

theorem sortBy_pairwise {α : Type} {le : α → α → Bool}
    (htrans : ∀ a b c, le a b = true → le b c = true → le a c = true)
    (htot : ∀ a b, le a b = true ∨ le b a = true) :
    ∀ l : List α, (sortBy le l).Pairwise (le · · = true)
  | [] => List.Pairwise.nil
  | x :: xs => pairwise_insertSorted htrans htot x (sortBy_pairwise htrans htot xs)

theorem sortBy_of_pairwise {α : Type} {le : α → α → Bool} :
    ∀ {l : List α}, l.Pairwise (le · · = true) → sortBy le l = l
  | [], _ => rfl
  | x :: xs, h => by
    rw [List.pairwise_cons] at h
    rw [sortBy, sortBy_of_pairwise h.2]
    cases xs with
    | nil => rfl
    | cons y ys => simp [insertSorted, h.1 y (by simp)]

/-! Properties of the `sort_acl` comparator. -/

theorem charListLe_trans :
    ∀ a b c : List Char, charListLe a b = true → charListLe b c = true →
      charListLe a c = true
  | [], _, _, _, _ => rfl
  | _ :: _, [], _, h, _ => by simp [charListLe] at h
  | _ :: _, _ :: _, [], _, h₂ => by simp [charListLe] at h₂
  | a :: as, b :: bs, c :: cs, h₁, h₂ => by
    simp only [charListLe] at h₁ h₂ ⊢
    by_cases hab : a = b <;> by_cases hbc : b = c
    · subst hab; subst hbc
      simp only [if_pos rfl] at h₁ h₂ ⊢
      exact charListLe_trans as bs cs h₁ h₂
    · subst hab
      simp only [if_neg hbc, decide_eq_true_eq] at h₂
      rw [if_neg hbc]
      simpa using h₂
    · subst hbc
      simp only [if_neg hab, decide_eq_true_eq] at h₁
      rw [if_neg hab]
      simpa using h₁
    · simp only [if_neg hab, if_neg hbc, decide_eq_true_eq] at h₁ h₂
      have hac : a < c := lt_trans h₁ h₂
      rw [if_neg (ne_of_lt hac)]
      simpa using hac

theorem charListLe_total :
    ∀ a b : List Char, charListLe a b = true ∨ charListLe b a = true
  | [], _ => Or.inl rfl
  | _ :: _, [] => Or.inr rfl
  | a :: as, b :: bs => by
    simp only [charListLe]
    by_cases hab : a = b
    · subst hab
      simp only [if_pos rfl]
      exact charListLe_total as bs
    · rcases lt_or_gt_of_ne hab with h | h
      · exact Or.inl (by simp [if_neg hab, h])
      · exact Or.inr (by simp [if_neg (Ne.symm hab), h])

theorem aclLe_trans (a b c : String) (h₁ : aclLe a b = true) (h₂ : aclLe b c = true) :
    aclLe a c = true := by
  unfold aclLe at h₁ h₂ ⊢
  cases hA : startsWithR a "REVOKE" <;> cases hB : startsWithR b "REVOKE" <;>
    cases hC : startsWithR c "REVOKE" <;> simp_all <;>
    exact charListLe_trans _ _ _ h₁ h₂

theorem aclLe_total (a b : String) : aclLe a b = true ∨ aclLe b a = true := by
  unfold aclLe
  cases hA : startsWithR a "REVOKE" <;> cases hB : startsWithR b "REVOKE" <;> simp_all
  · exact charListLe_total _ _
  · exact charListLe_total _ _

/-- A statement beginning with `GRANT` does not begin with `REVOKE`. -/
theorem grant_not_revoke (s : String) (h : startsWithR s "GRANT" = true) :
    startsWithR s "REVOKE" = false := by
  unfold startsWithR at h ⊢
  have hg : "GRANT".toList = ['G', 'R', 'A', 'N', 'T'] := by decide
  have hr : "REVOKE".toList = ['R', 'E', 'V', 'O', 'K', 'E'] := by decide
  rw [hg] at h
  rw [hr]
  cases hl : s.toList with
  | nil => rw [hl] at h; simp [List.isPrefixOf] at h
  | cons c cs =>
    rw [hl] at h
    simp only [List.isPrefixOf, Bool.and_eq_true, beq_iff_eq] at h
    simp [List.isPrefixOf, ← h.1]

/-- C2: for every input string, `sort_acl` splits it on `";\n"`, discards
empty segments, re-appends `";"` to each remaining segment (the output minus
its final element is a permutation of exactly those statements), orders the
result so that every statement beginning with `REVOKE` precedes every
statement beginning with `GRANT` and statements of equal REVOKE-status are
in plain lexical order of their full text (`charListLe`), and ends with one
empty string. -/
theorem c2_sort_acl_spec (s : String) :
    (sort_acl s).dropLast.Perm
        (((splitAclSep s.toList).filter (· ≠ [])).map (fun e => String.mk (e ++ [';'])))
    ∧ (sort_acl s).dropLast.Pairwise (fun a b =>
        (startsWithR a "GRANT" = true → startsWithR b "REVOKE" = false)
        ∧ (startsWithR a "REVOKE" = startsWithR b "REVOKE" →
            charListLe a.toList b.toList = true))
    ∧ (sort_acl s).getLast? = some "" := by
  unfold sort_acl
  refine ⟨?_, ?_, ?_⟩
  · rw [List.dropLast_concat]
    exact sortBy_perm aclLe _
  · rw [List.dropLast_concat]
    refine (sortBy_pairwise aclLe_trans aclLe_total _).imp ?_
    intro a b hab
    constructor
    · intro hg
      cases hbr : startsWithR b "REVOKE" with
      | false => rfl
      | true =>
        unfold aclLe at hab
        rw [grant_not_revoke a hg, hbr] at hab
        simp at hab
    · intro hst
      unfold aclLe at hab
      rw [if_pos hst] at hab
      exact hab
  · exact List.getLast?_concat _

/-! Split/join round-trip lemmas for the ACL sorter. -/

theorem splitAclSep_ne_nil : ∀ s : List Char, splitAclSep s ≠ []
  | [] => by simp [splitAclSep]
  | [c] => by simp [splitAclSep]
  | c₁ :: c₂ :: rest => by
    simp only [splitAclSep]
    split
    · simp
    · have h := splitAclSep_ne_nil (c₂ :: rest)
      cases hs : splitAclSep (c₂ :: rest) with
      | nil => exact absurd hs h
      | cons a t => simp [List.modifyHead_cons]

/-- The head segment of a split is a prefix of the input. -/
theorem splitAclSep_head_prefix :
    ∀ (s : List Char) {h : List Char} {t : List (List Char)},
      splitAclSep s = h :: t → h <+: s
  | [], h, t, he => by
    simp only [splitAclSep] at he
    cases he
    exact List.nil_prefix
  | [c], h, t, he => by
    simp only [splitAclSep] at he
    cases he
    exact List.prefix_refl _
  | c₁ :: c₂ :: rest, h, t, he => by
    simp only [splitAclSep] at he
    split at he
    · cases he
      exact List.nil_prefix
    · cases hs : splitAclSep (c₂ :: rest) with
      | nil => exact absurd hs (splitAclSep_ne_nil _)
      | cons h₀ t₀ =>
        rw [hs, List.modifyHead_cons] at he
        cases he
        obtain ⟨u, hu⟩ := splitAclSep_head_prefix (c₂ :: rest) hs
        exact ⟨u, by rw [List.cons_append, hu]⟩

/-- Every segment produced by the split is free of the separator. -/
theorem splitAclSep_noSep :
    ∀ (s : List Char) {e : List Char}, e ∈ splitAclSep s → noSepB e = true
  | [], e, he => by
    simp only [splitAclSep, List.mem_singleton] at he
    simp [he, noSepB]
  | [c], e, he => by
    simp only [splitAclSep, List.mem_singleton] at he
    simp [he, noSepB]
  | c₁ :: c₂ :: rest, e, he => by
    simp only [splitAclSep] at he
    split at he
    · rcases List.mem_cons.mp he with rfl | he
      · rfl
      · exact splitAclSep_noSep rest he
    · rename_i hcond
      cases hs : splitAclSep (c₂ :: rest) with
      | nil => exact absurd hs (splitAclSep_ne_nil _)
      | cons h₀ t₀ =>
        rw [hs, List.modifyHead_cons] at he
        rcases List.mem_cons.mp he with rfl | he
        · have hh₀ : noSepB h₀ = true := splitAclSep_noSep (c₂ :: rest) (hs ▸ List.mem_cons_self _ _)
          cases h₀ with
          | nil => rfl
          | cons d ds =>
            have hd : d = c₂ := by
              have hp := splitAclSep_head_prefix (c₂ :: rest) hs
              rcases hp with ⟨u, hu⟩
              cases hu
              rfl
            simp only [noSepB]
            rw [if_neg (by rw [hd]; exact hcond)]
            exact hh₀
        · exact splitAclSep_noSep (c₂ :: rest) (by rw [hs]; exact List.mem_cons_of_mem _ he)

/-- Splitting a separator-joined statement list recovers the statements,
plus the empty trailing segment. -/
theorem splitAclSep_append_sep :
    ∀ (y : List Char) (tail : List Char), noSepB y = true →
      splitAclSep (y ++ ';' :: '\n' :: tail) = y :: splitAclSep tail
  | [], tail, _ => by simp [splitAclSep]
  | [c], tail, h => by
    simp [splitAclSep, List.modifyHead_cons]
  | c :: d :: y, tail, h => by
    simp only [noSepB] at h
    split at h
    · exact absurd h (by simp)
    · rename_i hcond
      have IH := splitAclSep_append_sep (d :: y) tail h
      rw [List.cons_append] at IH
      simp only [List.cons_append, splitAclSep, if_neg hcond, List.append_eq]
      rw [IH]
      simp [List.modifyHead_cons]

theorem splitAclSep_joinStmts :
    ∀ ys : List (List Char), (∀ y ∈ ys, noSepB y = true) →
      splitAclSep (joinStmts ys) = ys ++ [[]]
  | [], _ => by simp [joinStmts, splitAclSep]
  | y :: ys, h => by
    rw [joinStmts, splitAclSep_append_sep y _ (h y (List.mem_cons_self _ _)),
      splitAclSep_joinStmts ys (fun z hz => h z (List.mem_cons_of_mem _ hz))]
    rfl

theorem toList_append (a b : String) : (a ++ b).toList = a.toList ++ b.toList := rfl

theorem joinSegments_nl_toList :
    ∀ l : List String, (joinSegments "\n" (l ++ [""])).toList = charJoinNl (l.map String.toList)
  | [] => rfl
  | [x] => by
    show (x ++ "\n" ++ "").toList = charJoinNl [x.toList]
    rw [toList_append, toList_append]
    simp [charJoinNl]
  | x :: y :: ys => by
    have IH := joinSegments_nl_toList (y :: ys)
    show (x ++ "\n" ++ joinSegments "\n" ((y :: ys) ++ [""])).toList =
      charJoinNl (x.toList :: (y :: ys).map String.toList)
    rw [toList_append, toList_append, IH]
    simp [charJoinNl]

theorem filter_map_split_charJoinNl :
    ∀ l : List String,
      (∀ x ∈ l, ∃ e, x.toList = e ++ [';'] ∧ noSepB e = true ∧ e ≠ []) →
      ((splitAclSep (charJoinNl (l.map String.toList))).filter (· ≠ [])).map
        (fun e => String.mk (e ++ [';'])) = l
  | [], _ => rfl
  | x :: xs, h => by
    obtain ⟨e, hx, hnosep, hne⟩ := h x (List.mem_cons_self _ _)
    have IH := filter_map_split_charJoinNl xs (fun z hz => h z (List.mem_cons_of_mem _ hz))
    show ((splitAclSep (x.toList ++ '\n' :: charJoinNl (xs.map String.toList))).filter
      (· ≠ [])).map (fun e => String.mk (e ++ [';'])) = x :: xs
    rw [hx, List.append_assoc, List.singleton_append,
      splitAclSep_append_sep e _ hnosep,
      List.filter_cons_of_pos (by simpa using hne), List.map_cons, IH, ← hx]
    rfl

/-- C6 counterexample: re-serializing the sorter's output by joining its
segments with the full statement separator `";\n"` (as the claim reads) and
sorting again does not reproduce the first sort: every terminating semicolon
is duplicated, because the sorted segments already carry their `";"`. -/
theorem c6_counterexample :
    sort_acl "b;\na" = ["a;", "b;", ""]
    ∧ sort_acl (joinSegments ";\n" (sort_acl "b;\na")) = ["a;;", "b;;", ""]
    ∧ sort_acl (joinSegments ";\n" (sort_acl "b;\na")) ≠ sort_acl "b;\na" := by
  refine ⟨by decide, by decide, by decide⟩

/-- C6 (amended): the ACL sorter is idempotent once the output segments are
re-serialized by joining them with a newline — each segment already ends in
its terminating `";"`, so the newline-joined text is again a `";\n"`-separated
ACL definition; sorting it again yields exactly the same segment sequence. -/
theorem c6_sort_acl_idempotent (s : String) :
    sort_acl (joinSegments "\n" (sort_acl s)) = sort_acl s := by
  unfold sort_acl
  set parts := ((splitAclSep s.toList).filter (· ≠ [])).map (fun e => String.mk (e ++ [';']))
    with hparts
  have helem : ∀ x ∈ sortBy aclLe parts, ∃ e, x.toList = e ++ [';'] ∧ noSepB e = true ∧ e ≠ [] := by
    intro x hx
    have hx₁ : x ∈ parts := (sortBy_perm aclLe parts).mem_iff.mp hx
    rw [hparts] at hx₁
    obtain ⟨e, he, rfl⟩ := List.mem_map.mp hx₁
    have hfe := List.mem_filter.mp he
    exact ⟨e, rfl, splitAclSep_noSep s.toList hfe.1, by simpa using hfe.2⟩
  rw [joinSegments_nl_toList, filter_map_split_charJoinNl _ helem]
  show sortBy aclLe (sortBy aclLe parts) ++ [""] = sortBy aclLe parts ++ [""]
  rw [sortBy_of_pairwise (sortBy_pairwise aclLe_trans aclLe_total parts)]

/-! Entry-stream iterator lemmas. -/

theorem iter_run_count (src : Nat → Except String CustomDumpItem) :
    ∀ (n pos fuel : Nat), n ≤ fuel →
      iter_run src ⟨(n : Int), pos⟩ fuel = (List.range' pos n).map src
  | 0, pos, 0, _ => rfl
  | 0, pos, fuel + 1, _ => by
    simp [iter_run, iter_next]
  | n + 1, pos, fuel + 1, h => by
    have hne : ((n + 1 : Nat) : Int) ≠ 0 := by
      exact_mod_cast Nat.succ_ne_zero n
    have hsub : ((n + 1 : Nat) : Int) - 1 = ((n : Nat) : Int) := by push_cast; ring
    simp only [iter_run, iter_next, if_neg hne]
    rw [List.range'_succ, List.map_cons]
    refine congrArg (_ :: ·) ?_
    rw [show (⟨((n + 1 : Nat) : Int) - 1, pos + 1⟩ : ContentsIterator) =
      ⟨((n : Nat) : Int), pos + 1⟩ by rw [hsub]]
    exact iter_run_count src n (pos + 1) fuel (Nat.succ_le_succ_iff.mp h)

/-- C3: for every declared entry count N (N ≥ 0) the entry stream performs
exactly N decode attempts — it yields precisely the results of `read_item`
calls 0..N-1 and then nothing more, however much further it is driven —
terminating by the declared count alone: the byte source `src` is arbitrary,
so no end-of-input condition (trailing bytes included) can influence
termination. -/
theorem c3_entry_stream_count (N fuel : Nat) (src : Nat → Except String CustomDumpItem)
    (h : N ≤ fuel) :
    iter_run src ⟨(N : Int), 0⟩ fuel = (List.range N).map src := by
  rw [List.range_eq_range']
  exact iter_run_count src N 0 fuel h

/-- Witness for C3 at N = 3, fuel = 5. -/
theorem c3_entry_stream_count_witness :
    iter_run (fun _ => .error "unexpected end of file") ⟨(3 : Nat), 0⟩ 5 =
      (List.range 3).map (fun _ => .error "unexpected end of file") :=
  c3_entry_stream_count 3 5 (fun _ => .error "unexpected end of file") (by decide)

/-- C8 counterexample: the raw entry stream does not terminate at a decode
fault.  With two declared entries over a source whose every decode attempt
faults, the element after the first fault is still yielded: the stream has
two elements, not one. -/
theorem c8_counterexample :
    iter_run (fun _ => .error "unexpected end of file") ⟨(2 : Int), 0⟩ 2 =
      [.error "unexpected end of file", .error "unexpected end of file"] := by decide

/-- C8 (amended): the raw entry stream keeps yielding decode attempts after
a fault (see the counterexample); what terminates at the first fault is the
consuming classification loop of `read_dump`: stream elements after the
first fault never affect its outcome. -/
theorem c8_read_loop_stops_at_fault (aux : AuxiliaryData) (e : String) :
    ∀ (pre suffix : List (Except String CustomDumpItem)) (d : CustomDump),
      readItems aux (pre ++ .error e :: suffix) d = readItems aux (pre ++ [.error e]) d
  | [], _, _ => rfl
  | .error e₂ :: _, _, _ => rfl
  | .ok item :: pre, suffix, d => by
    show readItems aux (.ok item :: (pre ++ .error e :: suffix)) d =
      readItems aux (.ok item :: (pre ++ [.error e])) d
    simp only [readItems]
    cases add_item d item aux with
    | error f => rfl
    | ok d₁ => exact c8_read_loop_stops_at_fault aux e pre suffix d₁

/-- C9 counterexample: a header-continuation block whose entry count decodes
to -1 is accepted by `read_header` (Ok), not rejected: the parser applies no
sign check to the declared count. -/
theorem c9_counterexample :
    readHeader (1, 12) 1 (hdrNegBytes 1) = .ok (⟨-1⟩, []) ∧ (-1 : Int) < 0 :=
  ⟨by decide, by decide⟩

/-- C9 (amended): header parsing places no lower bound on the declared
entry count: for every magnitude byte b with the sign bit clear (b < 128,
so the one-byte signed value decodes as +b and the sign byte then negates
it), a continuation block encoding entry count -b parses successfully,
returning num_items = -b. -/
theorem c9_negative_count_accepted (b : Nat) (hb : b < 128) :
    readHeader (1, 12) 1 (hdrNegBytes b) = .ok (⟨-(b : Int)⟩, []) := by
  have hb₁ : ¬(2 ^ (8 * 1 - 1) ≤ b + 256 * 0) := by simpa using hb
  simp [readHeader, hdrNegBytes, readU8, readLE, readInt, readStrBytes, takeBytes,
    versionGE, signExtend, Bind.bind, Except.bind, Pure.pure, Except.pure, hb₁]
  exact hb

/-- Witness for C9 (amended) at magnitude 5. -/
theorem c9_negative_count_accepted_witness :
    readHeader (1, 12) 1 (hdrNegBytes 5) = .ok (⟨-5⟩, []) :=
  c9_negative_count_accepted 5 (by decide)

theorem mem_viewsInsert_self (l : List (String × String)) (v : String × String) :
    v ∈ viewsInsert l v := by
  unfold viewsInsert
  split
  · assumption
  · simp

/-- C1: for every ACL or COMMENT entry whose combo tag has kind word TABLE
(`"TABLE rest"`), the classifier routes it to
`[namespace, "VIEWS", rest ++ ".sql"]` exactly when the (namespace, rest)
pair is in the view registry (`is_view`/`views` membership), and to
`[namespace, "TABLES", rest ++ ".sql"]` otherwise; the registry is populated
by classifying VIEW entries earlier in the same pass (second conjunct). -/
theorem c1_table_combo_routing :
    (∀ (d : CustomDump) (item : CustomDumpItem) (aux : AuxiliaryData) (rest : String),
      item.table_oid = 0 → (item.desc = "ACL" ∨ item.desc = "COMMENT") →
      splitOnce ' ' item.tag = some ("TABLE", rest) →
      ∃ cont, classify_item d item aux =
        .ok (d, [item.nspace,
          if is_view d item.nspace rest then "VIEWS" else "TABLES", rest ++ ".sql"], cont)
        ∧ (is_view d item.nspace rest = true ↔ (item.nspace, rest) ∈ d.views))
    ∧ (∀ (d : CustomDump) (item : CustomDumpItem) (aux : AuxiliaryData) (d₁ : CustomDump)
        (fp cont : List String),
      item.table_oid = 1259 → item.desc = "VIEW" →
      classify_item d item aux = .ok (d₁, fp, cont) →
      (item.nspace, item.tag) ∈ d₁.views) := by
  constructor
  · intro d item aux rest h₁ h₂ h₃
    obtain ⟨toid, oid, tag, desc, defn, ns, owner⟩ := item
    simp only at h₁ h₂ h₃ ⊢
    subst h₁
    rcases h₂ with rfl | rfl
    · have e₁ : classify_item d ⟨0, oid, tag, "ACL", defn, ns, owner⟩ aux = (do
          let fp ← get_filepath_from_combo_tag d ⟨0, oid, tag, "ACL", defn, ns, owner⟩ "ACL"
          Except.ok (d, fp, sort_acl defn)) := rfl
      have e₂ : get_filepath_from_combo_tag d ⟨0, oid, tag, "ACL", defn, ns, owner⟩ "ACL" =
          .ok [ns, if is_view d ns rest then "VIEWS" else "TABLES", rest ++ ".sql"] := by
        simp only [get_filepath_from_combo_tag, h₃]
      exact ⟨sort_acl defn, by rw [e₁, e₂]; exact rfl, List.elem_iff⟩
    · have e₁ : classify_item d ⟨0, oid, tag, "COMMENT", defn, ns, owner⟩ aux = (do
          let fp ← get_filepath_from_combo_tag d ⟨0, oid, tag, "COMMENT", defn, ns, owner⟩
            "COMMENT"
          Except.ok (d, fp, [defn])) := rfl
      have e₂ : get_filepath_from_combo_tag d ⟨0, oid, tag, "COMMENT", defn, ns, owner⟩
          "COMMENT" =
          .ok [ns, if is_view d ns rest then "VIEWS" else "TABLES", rest ++ ".sql"] := by
        simp only [get_filepath_from_combo_tag, h₃]
      exact ⟨[defn], by rw [e₁, e₂]; exact rfl, List.elem_iff⟩
  · intro d item aux d₁ fp cont h₁ h₂ h₃
    obtain ⟨toid, oid, tag, desc, defn, ns, owner⟩ := item
    simp only at h₁ h₂ h₃ ⊢
    subst h₁; subst h₂
    have e₁ : classify_item d ⟨1259, oid, tag, "VIEW", defn, ns, owner⟩ aux =
        (match aux.pretty_printed_views oid with
          | none => .error (.panic "pretty_printed_views unwrap")
          | some body =>
            .ok ({ d with views := viewsInsert d.views (ns, tag) },
              [ns, "VIEWS", tag ++ ".sql"],
              ["CREATE OR REPLACE VIEW " ++ tag ++ " AS", body,
               "ALTER VIEW " ++ ns ++ "." ++ tag ++ " OWNER TO " ++ owner ++ ";\n"])) := rfl
    rw [e₁] at h₃
    cases hp : aux.pretty_printed_views oid with
    | none => rw [hp] at h₃; cases h₃
    | some body =>
      rw [hp] at h₃
      cases h₃
      exact mem_viewsInsert_self _ _

/-- Witness for C1: an ACL entry tagged `"TABLE v1"` in a pass whose view
registry holds (public, v1) routes to public/VIEWS/v1.sql; and classifying
the VIEW entry for v1 puts (public, v1) into the registry. -/
theorem c1_table_combo_routing_witness :
    (∃ cont, classify_item dumpWithViewV1 itemAclV1 auxEmpty =
      .ok (dumpWithViewV1, ["public", "VIEWS", "v1.sql"], cont))
    ∧ ("public", "v1") ∈
        ({ CustomDump.new with views := [("public", "v1")] } : CustomDump).views := by
  constructor
  · obtain ⟨cont, heq, _⟩ :=
      c1_table_combo_routing.1 dumpWithViewV1 itemAclV1 auxEmpty "v1" rfl (Or.inl rfl) (by decide)
    refine ⟨cont, ?_⟩
    have hns : itemAclV1.nspace = "public" := rfl
    rw [hns] at heq
    have hif : (if is_view dumpWithViewV1 "public" "v1" then "VIEWS" else "TABLES") = "VIEWS" := by
      decide
    rw [hif] at heq
    exact heq
  · exact c1_table_combo_routing.2 CustomDump.new itemViewV1 auxView7
      { CustomDump.new with views := [("public", "v1")] } ["public", "VIEWS", "v1.sql"]
      ["CREATE OR REPLACE VIEW v1 AS", " SELECT 1;", "ALTER VIEW public.v1 OWNER TO alice;\n"]
      rfl rfl rfl

/-- C4: a FUNCTION entry (catalog id 1255) whose tag contains `"("` is
routed to `<namespace>/TRIGGER_FUNCTIONS/<name-before-first-(>.sql` when its
object id is in the trigger-function set and to
`<namespace>/FUNCTIONS/<name-before-first-(>.sql` otherwise, and in both
cases the statement `ALTER FUNCTION <namespace>.<tag> OWNER TO <owner>;`
(newline-terminated in the content block) is appended after the raw
definition. -/
theorem c4_function_routing (d : CustomDump) (item : CustomDumpItem) (aux : AuxiliaryData)
    (fname rest : String)
    (h₁ : item.table_oid = 1255) (h₂ : item.desc = "FUNCTION")
    (h₃ : splitOnce '(' item.tag = some (fname, rest)) :
    classify_item d item aux =
      .ok (d, [item.nspace,
        if aux.trigger_functions item.oid then "TRIGGER_FUNCTIONS" else "FUNCTIONS",
        fname ++ ".sql"],
        [item.definition,
         "ALTER FUNCTION " ++ item.nspace ++ "." ++ item.tag ++ " OWNER TO " ++
           item.owner ++ ";\n"])
    ∧ (aux.trigger_functions item.oid = true →
        classify_item d item aux =
          .ok (d, [item.nspace, "TRIGGER_FUNCTIONS", fname ++ ".sql"],
            [item.definition,
             "ALTER FUNCTION " ++ item.nspace ++ "." ++ item.tag ++ " OWNER TO " ++
               item.owner ++ ";\n"]))
    ∧ (aux.trigger_functions item.oid = false →
        classify_item d item aux =
          .ok (d, [item.nspace, "FUNCTIONS", fname ++ ".sql"],
            [item.definition,
             "ALTER FUNCTION " ++ item.nspace ++ "." ++ item.tag ++ " OWNER TO " ++
               item.owner ++ ";\n"])) := by
  obtain ⟨toid, oid, tag, desc, defn, ns, owner⟩ := item
  simp only at h₁ h₂ h₃ ⊢
  subst h₁; subst h₂
  have heq : classify_item d ⟨1255, oid, tag, "FUNCTION", defn, ns, owner⟩ aux =
      .ok (d, [ns, if aux.trigger_functions oid then "TRIGGER_FUNCTIONS" else "FUNCTIONS",
        fname ++ ".sql"],
        [defn, "ALTER FUNCTION " ++ ns ++ "." ++ tag ++ " OWNER TO " ++ owner ++ ";\n"]) := by
    have e₁ : classify_item d ⟨1255, oid, tag, "FUNCTION", defn, ns, owner⟩ aux =
        (match splitOnce '(' tag with
          | none => .error (.panic "split_once unwrap")
          | some (function_name, _) =>
            .ok (d, [ns,
              if aux.trigger_functions oid then "TRIGGER_FUNCTIONS" else "FUNCTIONS",
              function_name ++ ".sql"],
              [defn, "ALTER FUNCTION " ++ ns ++ "." ++ tag ++ " OWNER TO " ++ owner ++ ";\n"]))
        := rfl
    rw [e₁, h₃]
  refine ⟨heq, fun htf => ?_, fun htf => ?_⟩
  · rw [heq, htf]; simp
  · rw [heq, htf]; simp

/-- Witness for C4: `compute_total(integer, integer)` with object id 42 in
the trigger-function set lands in public/TRIGGER_FUNCTIONS with the ALTER
FUNCTION ownership statement appended. -/
theorem c4_function_routing_witness :
    classify_item CustomDump.new itemFunc auxTrig42 =
      .ok (CustomDump.new, ["public", "TRIGGER_FUNCTIONS", "compute_total.sql"],
        ["CREATE FUNCTION compute_total;",
         "ALTER FUNCTION public.compute_total(integer, integer) OWNER TO alice;\n"]) :=
  (c4_function_routing CustomDump.new itemFunc auxTrig42 "compute_total" "integer, integer)"
    rfl rfl (by decide)).2.1 (by decide)

/-! Association-list and split-tree lemmas. -/

theorem lookup_alistUpdate {β : Type} (k k₀ : String) (f : β → β) :
    ∀ l : List (String × β),
      (alistUpdate k₀ f l).lookup k =
        if k = k₀ then (l.lookup k).map f else l.lookup k
  | [] => by simp [alistUpdate]
  | (k₁, v) :: rest => by
    by_cases h₁ : k₁ = k₀
    · subst h₁
      by_cases h₂ : k = k₁
      · subst h₂
        simp [alistUpdate, List.lookup]
      · simp [alistUpdate, List.lookup, beq_false_of_ne h₂, if_neg h₂]
    · by_cases h₂ : k = k₁
      · subst h₂
        simp [alistUpdate, List.lookup, h₁]
      · simp only [alistUpdate, if_neg h₁, List.lookup, beq_false_of_ne h₂]
        exact lookup_alistUpdate k k₀ f rest

theorem lookup_append_single {β : Type} (k f : String) (c : β) :
    ∀ l : List (String × β),
      (l ++ [(f, c)]).lookup k =
        if k = f then some ((l.lookup k).getD c) else l.lookup k
  | [] => by
    by_cases h : k = f
    · simp [List.lookup, h]
    · simp [List.lookup, beq_false_of_ne h, h]
  | (k₁, v) :: rest => by
    by_cases h₂ : k = k₁
    · subst h₂; simp [List.lookup]
    · simp only [List.cons_append, List.lookup, beq_false_of_ne h₂]
      exact lookup_append_single k f c rest

/-- Walking into a subdirectory never changes the current node's files. -/
theorem insertPath_cons_files (cwd : SplitDumpDirectory) (dname : String) (rest : List String)
    (filename : String) (contents : List String) :
    ((insertPath cwd (dname :: rest) filename contents).1).files = cwd.files := rfl

/-- Inserting a file at the current node: the named file's blocks after the
insert (existing blocks with the new ones appended, or just the new ones). -/
theorem insertPath_nil_lookup_self (cwd : SplitDumpDirectory) (filename : String)
    (contents : List String) :
    ((insertPath cwd [] filename contents).1).files.lookup filename =
      some ((cwd.files.lookup filename).getD [] ++ contents) := by
  obtain ⟨ds, fs⟩ := cwd
  unfold insertPath
  simp only [SplitDumpDirectory.files]
  cases h : fs.lookup filename with
  | none => simp [h, lookup_append_single]
  | some v => simp [h, lookup_alistUpdate]

/-- Inserting a file at the current node leaves every other file key's
lookup unchanged. -/
theorem insertPath_nil_lookup_other (cwd : SplitDumpDirectory) (filename : String)
    (contents : List String) (k : String) (hk : k ≠ filename) :
    ((insertPath cwd [] filename contents).1).files.lookup k = cwd.files.lookup k := by
  obtain ⟨ds, fs⟩ := cwd
  unfold insertPath
  simp only [SplitDumpDirectory.files]
  cases h : fs.lookup filename with
  | none => simp [h, lookup_append_single, hk]
  | some v => simp [h, lookup_alistUpdate, hk]

/-- With no index file at the root, merging a newly created non-index file
hits the failing unwrap. -/
theorem merge_item_index_none_panic (d : CustomDump) (fp c : List String) (fn : String)
    (hlast : fp.getLast? = some fn) (hfn : fn ≠ "index.sql")
    (hnew : (insertPath d.split_root fp.dropLast fn c).2 = true)
    (hidx : d.split_root.files.lookup "index.sql" = none) :
    merge_item d fp c = .error (.panic indexUnwrapMsg) := by
  have hroot : (insertPath d.split_root fp.dropLast fn c).1.files.lookup "index.sql" = none := by
    cases hdl : fp.dropLast with
    | nil =>
      rw [insertPath_nil_lookup_other d.split_root fn c "index.sql" (Ne.symm hfn)]
      exact hidx
    | cons a t =>
      rw [insertPath_cons_files]
      exact hidx
  unfold merge_item
  split
  · rename_i hnone
    rw [hlast] at hnone
    cases hnone
  · rename_i fn₂ hsome
    rw [hlast] at hsome
    cases hsome
    rw [if_pos ⟨hnew, hfn⟩, hroot]

/-- With an index file present at the root, the merge step always succeeds
and the index file stays present. -/
theorem merge_item_ok_and_index (d : CustomDump) (fp c : List String)
    (hidx : (d.split_root.files.lookup "index.sql").isSome) :
    ∃ d', merge_item d fp c = .ok d' ∧ (d'.split_root.files.lookup "index.sql").isSome := by
  unfold merge_item
  split
  · exact ⟨d, rfl, hidx⟩
  · rename_i fn hsome
    obtain ⟨v, hv⟩ := Option.isSome_iff_exists.mp hidx
    have hroot :
        ((insertPath d.split_root fp.dropLast fn c).1.files.lookup "index.sql").isSome := by
      cases hdl : fp.dropLast with
      | nil =>
        by_cases hfn : fn = "index.sql"
        · subst hfn
          rw [insertPath_nil_lookup_self]
          rfl
        · rw [insertPath_nil_lookup_other d.split_root fn c "index.sql" (Ne.symm hfn), hv]
          rfl
      | cons a t =>
        rw [insertPath_cons_files, hv]
        rfl
    by_cases hcond : (insertPath d.split_root fp.dropLast fn c).2 = true ∧ fn ≠ "index.sql"
    · rw [if_pos hcond]
      obtain ⟨w, hw⟩ := Option.isSome_iff_exists.mp hroot
      rw [hw]
      refine ⟨_, rfl, ?_⟩
      show ((alistUpdate "index.sql" (· ++ ["\\ir " ++ String.intercalate "/" fp])
        ((insertPath d.split_root fp.dropLast fn c).1.files)).lookup "index.sql").isSome = true
      rw [lookup_alistUpdate, if_pos rfl, hw]
      rfl
    · rw [if_neg hcond]
      exact ⟨_, rfl, hroot⟩

theorem except_bind_ok {ε α β : Type} (x : Except ε α) (f : α → Except ε β) (b : β)
    (h : x >>= f = Except.ok b) : ∃ a, x = Except.ok a ∧ f a = Except.ok b := by
  cases x with
  | error e => simp [Bind.bind, Except.bind] at h
  | ok a => exact ⟨a, rfl, by simpa [Bind.bind, Except.bind] using h⟩

theorem ite_eq_or {α : Type} {P : Prop} [Decidable P] {x y b : α}
    (h : (if P then x else y) = b) : x = b ∨ y = b := by
  split at h
  · exact Or.inl h
  · exact Or.inr h

/-- Classification never touches the split tree: only the merge step does.
The updated dump state returned by `classify_item` differs from the input at
most in the session fields and the view registry. -/
theorem classify_split_root (d : CustomDump) (item : CustomDumpItem) (aux : AuxiliaryData)
    (out : CustomDump × List String × List String)
    (h : classify_item d item aux = .ok out) : out.1.split_root = d.split_root := by
  unfold classify_item at h
  obtain h | h := ite_eq_or h
  · obtain h | h := ite_eq_or h
    · exact Except.noConfusion h
    · cases h; rfl
  obtain h | h := ite_eq_or h
  · obtain h | h := ite_eq_or h
    · exact Except.noConfusion h
    · cases h; rfl
  obtain h | h := ite_eq_or h
  · obtain h | h := ite_eq_or h
    · exact Except.noConfusion h
    · cases h; rfl
  obtain h | h := ite_eq_or h
  · obtain ⟨fp, hfp₁, hfp₂⟩ := except_bind_ok _ _ _ h
    cases hfp₂; rfl
  obtain h | h := ite_eq_or h
  · obtain ⟨fp, hfp₁, hfp₂⟩ := except_bind_ok _ _ _ h
    cases hfp₂; rfl
  obtain h | h := ite_eq_or h
  · obtain h | h := ite_eq_or h
    · cases h; rfl
    · cases h; rfl
  obtain h | h := ite_eq_or h
  · cases h; rfl
  obtain h | h := ite_eq_or h
  · cases h; rfl
  obtain h | h := ite_eq_or h
  · cases h; rfl
  obtain h | h := ite_eq_or h
  · cases h; rfl
  obtain h | h := ite_eq_or h
  · split at h
    · exact Except.noConfusion h
    · cases h; rfl
  obtain h | h := ite_eq_or h
  · split at h
    · exact Except.noConfusion h
    · cases h; rfl
  obtain h | h := ite_eq_or h
  · cases h; rfl
  obtain h | h := ite_eq_or h
  · cases h; rfl
  obtain h | h := ite_eq_or h
  · split at h
    · exact Except.noConfusion h
    · cases h; rfl
  obtain h | h := ite_eq_or h
  · split at h
    · exact Except.noConfusion h
    · cases h; rfl
  obtain h | h := ite_eq_or h
  · split at h
    · exact Except.noConfusion h
    · cases h; rfl
  obtain h | h := ite_eq_or h
  · split at h
    · exact Except.noConfusion h
    · cases h; rfl
  obtain h | h := ite_eq_or h
  · split at h
    · exact Except.noConfusion h
    · cases h; rfl
  obtain h | h := ite_eq_or h
  · split at h
    · exact Except.noConfusion h
    · cases h; rfl
  obtain h | h := ite_eq_or h
  · cases h; rfl
  obtain h | h := ite_eq_or h
  · cases h; rfl
  obtain h | h := ite_eq_or h
  · split at h
    · exact Except.noConfusion h
    · cases h; rfl
  obtain h | h := ite_eq_or h
  · cases h; rfl
  obtain h | h := ite_eq_or h
  · cases h; rfl
  obtain h | h := ite_eq_or h
  · split at h
    · exact Except.noConfusion h
    · cases h; rfl
  exact Except.noConfusion h
/-- Merging into the root index file itself never needs the directive and
never panics. -/
theorem merge_item_index_file (dd : CustomDump) (cc : List String) :
    merge_item dd ["index.sql"] cc =
      .ok { dd with split_root := (insertPath dd.split_root [] "index.sql" cc).1 } := by
  unfold merge_item
  split
  · rename_i heq
    exact absurd heq (by decide)
  · rename_i filename heq
    rw [show (["index.sql"] : List String).getLast? = some "index.sql" from rfl] at heq
    cases heq
    rw [if_neg (fun hc => hc.2 rfl)]
    rfl

/-- `add_item` on a non-DATABASE entry is classification followed by the
tree merge. -/
theorem add_item_not_database (d : CustomDump) (item : CustomDumpItem) (aux : AuxiliaryData)
    (hdb : ¬(item.table_oid = 1262 ∧ item.desc = "DATABASE")) :
    add_item d item aux =
      match classify_item d item aux with
      | .error f => .error f
      | .ok (d₁, filepath, contents) => merge_item d₁ filepath contents := by
  unfold add_item
  rw [if_neg hdb]

/-- A successful `add_item` never removes the root index file. -/
theorem add_item_index_mono (d : CustomDump) (item : CustomDumpItem) (aux : AuxiliaryData)
    (d' : CustomDump) (h : add_item d item aux = .ok d')
    (hidx : (d.split_root.files.lookup "index.sql").isSome) :
    (d'.split_root.files.lookup "index.sql").isSome := by
  unfold add_item at h
  split at h
  · cases h
    exact hidx
  · split at h
    · exact Except.noConfusion h
    · rename_i d₁ fp c heq
      have hsr := classify_split_root d item aux (d₁, fp, c) heq
      obtain ⟨d₂, hm, hi⟩ := merge_item_ok_and_index d₁ fp c (by rw [hsr]; exact hidx)
      rw [h] at hm
      cases hm
      exact hi

/-- Successfully classifying a session-setup entry (ENCODING, STDSTRINGS or
SEARCHPATH) puts the index file at the root. -/
theorem add_item_session_index (d : CustomDump) (item : CustomDumpItem) (aux : AuxiliaryData)
    (d' : CustomDump) (htoid : item.table_oid = 0)
    (hdesc : item.desc = "ENCODING" ∨ item.desc = "STDSTRINGS" ∨ item.desc = "SEARCHPATH")
    (h : add_item d item aux = .ok d') :
    (d'.split_root.files.lookup "index.sql").isSome := by
  obtain ⟨toid, oid, tag, desc, defn, ns, owner⟩ := item
  simp only at htoid hdesc h
  subst htoid
  have finish : ∀ (dd : CustomDump) (cc : List String),
      merge_item dd ["index.sql"] cc = .ok d' →
      (d'.split_root.files.lookup "index.sql").isSome := by
    intro dd cc hm
    rw [merge_item_index_file] at hm
    cases hm
    show (((insertPath dd.split_root [] "index.sql" cc).1).files.lookup "index.sql").isSome
      = true
    rw [insertPath_nil_lookup_self]
    rfl
  rcases hdesc with rfl | rfl | rfl
  · rw [add_item_not_database _ _ _ (by simp)] at h
    have e₁ : classify_item d ⟨0, oid, tag, "ENCODING", defn, ns, owner⟩ aux =
        if d.set_client_encoding.isSome then
          .error (.error (.otherError "more than one \"ENCODING\" item present"))
        else
          .ok ({ d with set_client_encoding := some defn }, ["index.sql"], [defn]) := rfl
    rw [e₁] at h
    by_cases hc : d.set_client_encoding.isSome
    · rw [if_pos hc] at h
      exact Except.noConfusion h
    · rw [if_neg hc] at h
      exact finish _ _ h
  · rw [add_item_not_database _ _ _ (by simp)] at h
    have e₁ : classify_item d ⟨0, oid, tag, "STDSTRINGS", defn, ns, owner⟩ aux =
        if d.set_standard_conforming_strings.isSome then
          .error (.error (.otherError "more than one \"STDSTRINGS\" item present"))
        else
          .ok ({ d with set_standard_conforming_strings := some defn }, ["index.sql"],
            [defn, "SET check_function_bodies = false;\n"]) := rfl
    rw [e₁] at h
    by_cases hc : d.set_standard_conforming_strings.isSome
    · rw [if_pos hc] at h
      exact Except.noConfusion h
    · rw [if_neg hc] at h
      exact finish _ _ h
  · rw [add_item_not_database _ _ _ (by simp)] at h
    have e₁ : classify_item d ⟨0, oid, tag, "SEARCHPATH", defn, ns, owner⟩ aux =
        if d.set_search_path.isSome then
          .error (.error (.otherError "more than one \"SEARCHPATH\" item present"))
        else
          .ok ({ d with set_search_path := some defn }, ["index.sql"], [defn]) := rfl
    rw [e₁] at h
    by_cases hc : d.set_search_path.isSome
    · rw [if_pos hc] at h
      exact Except.noConfusion h
    · rw [if_neg hc] at h
      exact finish _ _ h

/-- A successful run of the classification loop preserves a root index
file. -/
theorem readItems_index_mono (aux : AuxiliaryData) :
    ∀ (items : List (Except String CustomDumpItem)) (d d' : CustomDump),
      readItems aux items d = .ok d' →
      (d.split_root.files.lookup "index.sql").isSome →
      (d'.split_root.files.lookup "index.sql").isSome
  | [], d, d', h, hi => by
    cases h
    exact hi
  | .error e :: rest, d, d', h, hi => Except.noConfusion h
  | .ok item :: rest, d, d', h, hi => by
    simp only [readItems] at h
    split at h
    · exact Except.noConfusion h
    · rename_i d₁ heq
      exact readItems_index_mono aux rest d₁ d' h
        (add_item_index_mono d item aux d₁ heq hi)

/-- A successful run of the classification loop over a stream containing a
session-setup entry leaves the index file at the root. -/
theorem readItems_session_index (aux : AuxiliaryData) :
    ∀ (items : List (Except String CustomDumpItem)) (d d' : CustomDump),
      readItems aux items d = .ok d' →
      (∃ item, Except.ok item ∈ items ∧ item.table_oid = 0 ∧
        (item.desc = "ENCODING" ∨ item.desc = "STDSTRINGS" ∨ item.desc = "SEARCHPATH")) →
      (d'.split_root.files.lookup "index.sql").isSome
  | [], d, d', h, hex => by
    obtain ⟨item, hmem, _⟩ := hex
    exact absurd hmem (List.not_mem_nil _)
  | .error e :: rest, d, d', h, hex => Except.noConfusion h
  | .ok it :: rest, d, d', h, hex => by
    simp only [readItems] at h
    split at h
    · exact Except.noConfusion h
    · rename_i d₁ heq
      obtain ⟨item, hmem, htoid, hdesc⟩ := hex
      rcases List.mem_cons.mp hmem with hhd | htl
      · have hit : it = item := by injection hhd.symm
        subst hit
        exact readItems_index_mono aux rest d₁ d' h
          (add_item_session_index d it aux d₁ htoid hdesc heq)
      · exact readItems_session_index aux rest d₁ d' h ⟨item, htl, htoid, hdesc⟩

/-- C5 counterexample: an archive with no entries classifies successfully
(`read_dump` returns Ok on the empty stream) yet the root of the resulting
split tree contains no file at all — in particular no "index.sql".  The
index file is only ever created by classifying a session-setup entry. -/
theorem c5_counterexample :
    read_dump [] auxEmpty = .ok CustomDump.new
    ∧ CustomDump.new.split_root.files.lookup "index.sql" = none := ⟨rfl, rfl⟩

/-- C5 (amended): for every archive that classifies successfully and whose
entry stream contains at least one session-setup entry (catalog id 0 with
description ENCODING, STDSTRINGS or SEARCHPATH), the root of the resulting
split tree contains a file named "index.sql". -/
theorem c5_index_present (items : List (Except String CustomDumpItem))
    (aux : AuxiliaryData) (d' : CustomDump) (h : read_dump items aux = .ok d')
    (hsess : ∃ item, Except.ok item ∈ items ∧ item.table_oid = 0 ∧
      (item.desc = "ENCODING" ∨ item.desc = "STDSTRINGS" ∨ item.desc = "SEARCHPATH")) :
    (d'.split_root.files.lookup "index.sql").isSome :=
  readItems_session_index aux items CustomDump.new d' h hsess

/-- Witness for C5 (amended): a one-entry stream holding an ENCODING entry. -/
theorem c5_index_present_witness :
    (dumpEncoded.split_root.files.lookup "index.sql").isSome :=
  c5_index_present [Except.ok itemEncoding] auxEmpty dumpEncoded rfl
    ⟨itemEncoding, List.mem_singleton.mpr rfl, rfl, Or.inl rfl⟩

/-- C10: when no session-setup entry has been classified yet (the root has
no "index.sql"), classifying any entry that creates a new file with a name
other than "index.sql" panics at the `unwrap` of the root's index-file
entry; and whenever the root does hold "index.sql" — as after a session
entry — every entry that reaches the merge step is classified without that
unwrap ever failing. -/
theorem c10_index_unwrap :
    (∀ (d : CustomDump) (item : CustomDumpItem) (aux : AuxiliaryData)
        (d₁ : CustomDump) (fp c : List String) (fn : String),
      d.split_root.files.lookup "index.sql" = none →
      ¬(item.table_oid = 1262 ∧ item.desc = "DATABASE") →
      classify_item d item aux = .ok (d₁, fp, c) →
      fp.getLast? = some fn → fn ≠ "index.sql" →
      (insertPath d₁.split_root fp.dropLast fn c).2 = true →
      add_item d item aux = .error (.panic indexUnwrapMsg))
    ∧ (∀ (d : CustomDump) (item : CustomDumpItem) (aux : AuxiliaryData)
        (d₁ : CustomDump) (fp c : List String),
      (d.split_root.files.lookup "index.sql").isSome →
      classify_item d item aux = .ok (d₁, fp, c) →
      ∃ d', add_item d item aux = .ok d') := by
  constructor
  · intro d item aux d₁ fp c fn hidx hdb hcl hlast hfn hnew
    rw [add_item_not_database d item aux hdb, hcl]
    show merge_item d₁ fp c = .error (.panic indexUnwrapMsg)
    exact merge_item_index_none_panic d₁ fp c fn hlast hfn hnew
      (by rw [classify_split_root d item aux _ hcl]; exact hidx)
  · intro d item aux d₁ fp c hidx hcl
    by_cases hdb : item.table_oid = 1262 ∧ item.desc = "DATABASE"
    · refine ⟨d, ?_⟩
      unfold add_item
      rw [if_pos hdb]
    · rw [add_item_not_database d item aux hdb, hcl]
      show ∃ d', merge_item d₁ fp c = .ok d'
      obtain ⟨d₂, hm, _⟩ := merge_item_ok_and_index d₁ fp c
        (by rw [classify_split_root d item aux _ hcl]; exact hidx)
      exact ⟨d₂, hm⟩

/-- Witness for C10: a TABLE entry into a fresh dump (no session entry yet)
panics at the index unwrap; the same entry into a dump whose root already
has index.sql merges successfully. -/
theorem c10_index_unwrap_witness :
    add_item CustomDump.new itemTableUsers auxEmpty = .error (.panic indexUnwrapMsg)
    ∧ ∃ d', add_item dumpWithIndex itemTableUsers auxEmpty = .ok d' := by
  constructor
  · exact c10_index_unwrap.1 CustomDump.new itemTableUsers auxEmpty CustomDump.new
      ["public", "TABLES", "users.sql"]
      ["CREATE TABLE users ();", "ALTER TABLE public.users OWNER TO alice;\n"]
      "users.sql" rfl (by decide) rfl rfl (by decide) rfl
  · exact c10_index_unwrap.2 dumpWithIndex itemTableUsers auxEmpty dumpWithIndex
      ["public", "TABLES", "users.sql"]
      ["CREATE TABLE users ();", "ALTER TABLE public.users OWNER TO alice;\n"]
      rfl rfl

/-- C7: for each session-setup kind (catalog id 0 with description
ENCODING, STDSTRINGS or SEARCHPATH), classifying a second entry of a kind
already classified returns the data-integrity error value (an
`OtherError`, not a panic/crash), while a first entry of the kind succeeds,
records its definition in the corresponding session field, and records the
definition in the root index file. -/
theorem c7_session_setup (d : CustomDump) (item : CustomDumpItem) (aux : AuxiliaryData)
    (htoid : item.table_oid = 0) :
    (item.desc = "ENCODING" →
      (d.set_client_encoding.isSome = true →
        add_item d item aux =
          .error (.error (.otherError "more than one \"ENCODING\" item present")))
      ∧ (d.set_client_encoding = none →
        ∃ d', add_item d item aux = .ok d'
          ∧ d'.set_client_encoding = some item.definition
          ∧ ∃ blocks, d'.split_root.files.lookup "index.sql" = some blocks
              ∧ item.definition ∈ blocks))
    ∧ (item.desc = "STDSTRINGS" →
      (d.set_standard_conforming_strings.isSome = true →
        add_item d item aux =
          .error (.error (.otherError "more than one \"STDSTRINGS\" item present")))
      ∧ (d.set_standard_conforming_strings = none →
        ∃ d', add_item d item aux = .ok d'
          ∧ d'.set_standard_conforming_strings = some item.definition
          ∧ ∃ blocks, d'.split_root.files.lookup "index.sql" = some blocks
              ∧ item.definition ∈ blocks))
    ∧ (item.desc = "SEARCHPATH" →
      (d.set_search_path.isSome = true →
        add_item d item aux =
          .error (.error (.otherError "more than one \"SEARCHPATH\" item present")))
      ∧ (d.set_search_path = none →
        ∃ d', add_item d item aux = .ok d'
          ∧ d'.set_search_path = some item.definition
          ∧ ∃ blocks, d'.split_root.files.lookup "index.sql" = some blocks
              ∧ item.definition ∈ blocks)) := by
  obtain ⟨toid, oid, tag, desc, defn, ns, owner⟩ := item
  simp only at htoid ⊢
  subst htoid
  refine ⟨?_, ?_, ?_⟩
  · rintro rfl
    have e₁ : classify_item d ⟨0, oid, tag, "ENCODING", defn, ns, owner⟩ aux =
        if d.set_client_encoding.isSome then
          .error (.error (.otherError "more than one \"ENCODING\" item present"))
        else
          .ok ({ d with set_client_encoding := some defn }, ["index.sql"], [defn]) := rfl
    constructor
    · intro hsome
      rw [add_item_not_database _ _ _ (by simp), e₁, if_pos hsome]
    · intro hnone
      have hc : ¬(d.set_client_encoding.isSome = true) := by simp [hnone]
      rw [add_item_not_database _ _ _ (by simp), e₁, if_neg hc]
      have hm := merge_item_index_file { d with set_client_encoding := some defn } [defn]
      refine ⟨_, hm, rfl, _, insertPath_nil_lookup_self _ _ _, ?_⟩
      simp
  · rintro rfl
    have e₁ : classify_item d ⟨0, oid, tag, "STDSTRINGS", defn, ns, owner⟩ aux =
        if d.set_standard_conforming_strings.isSome then
          .error (.error (.otherError "more than one \"STDSTRINGS\" item present"))
        else
          .ok ({ d with set_standard_conforming_strings := some defn }, ["index.sql"],
            [defn, "SET check_function_bodies = false;\n"]) := rfl
    constructor
    · intro hsome
      rw [add_item_not_database _ _ _ (by simp), e₁, if_pos hsome]
    · intro hnone
      have hc : ¬(d.set_standard_conforming_strings.isSome = true) := by simp [hnone]
      rw [add_item_not_database _ _ _ (by simp), e₁, if_neg hc]
      have hm := merge_item_index_file
        { d with set_standard_conforming_strings := some defn }
        [defn, "SET check_function_bodies = false;\n"]
      refine ⟨_, hm, rfl, _, insertPath_nil_lookup_self _ _ _, ?_⟩
      simp
  · rintro rfl
    have e₁ : classify_item d ⟨0, oid, tag, "SEARCHPATH", defn, ns, owner⟩ aux =
        if d.set_search_path.isSome then
          .error (.error (.otherError "more than one \"SEARCHPATH\" item present"))
        else
          .ok ({ d with set_search_path := some defn }, ["index.sql"], [defn]) := rfl
    constructor
    · intro hsome
      rw [add_item_not_database _ _ _ (by simp), e₁, if_pos hsome]
    · intro hnone
      have hc : ¬(d.set_search_path.isSome = true) := by simp [hnone]
      rw [add_item_not_database _ _ _ (by simp), e₁, if_neg hc]
      have hm := merge_item_index_file { d with set_search_path := some defn } [defn]
      refine ⟨_, hm, rfl, _, insertPath_nil_lookup_self _ _ _, ?_⟩
      simp

/-- Witness for C7: a second ENCODING entry into an already-encoded dump
faults with the duplicate-item error value; a first ENCODING entry into a
fresh dump succeeds, fills the field and the index file. -/
theorem c7_session_setup_witness :
    add_item dumpEncoded itemEncoding auxEmpty =
      .error (.error (.otherError "more than one \"ENCODING\" item present"))
    ∧ ∃ d', add_item CustomDump.new itemEncoding auxEmpty = .ok d'
        ∧ d'.set_client_encoding = some itemEncoding.definition
        ∧ ∃ blocks, d'.split_root.files.lookup "index.sql" = some blocks
            ∧ itemEncoding.definition ∈ blocks := by
  constructor
  · exact ((c7_session_setup dumpEncoded itemEncoding auxEmpty rfl).1 rfl).1 rfl
  · exact ((c7_session_setup CustomDump.new itemEncoding auxEmpty rfl).1 rfl).2 rfl

end PgSplitDump
